import Mathlib

/-!
Shallow embedding of the `simple_todo` task tracker (Rust).

Sources embedded:
- `src/model.rs`: `Priority`, `Task`, `TodoList` with `add`, `mark_done`,
  `set_priority`, and the filters behind `print_done` / `print_todo` /
  `print_by_priority`.
- `src/cli.rs`: `Command`, `TodoError`, `parse_command`.
- `src/persistence.rs`: `load_todo_list`, `save_todo_list`, with the file
  system and the serde JSON layer modelled explicitly.

Rust `u32` values are modelled as `Nat`; where the source performs `u32`
arithmetic that can wrap (the `next_id = id + 1` update in `add`), the model
reduces modulo `2 ^ 32` (release-build wrapping semantics; debug builds would
abort at the same point).
-/

namespace SimpleTodo

/-- `u32::MAX + 1`, the modulus of Rust `u32` arithmetic. -/
def U32_MOD : Nat := 2 ^ 32

/-- `enum Priority { Low, Medium, High }` from `src/model.rs`. -/
inductive Priority
  | Low
  | Medium
  | High
deriving DecidableEq

/-- `#[default]` marks `Low` in the source. -/
def Priority.defaultPriority : Priority := .Low

/-- `struct Task` from `src/model.rs`. -/
structure Task where
  id : Nat
  text : String
  done : Bool
  priority : Priority
deriving DecidableEq

/-- `struct TodoList` from `src/model.rs`. -/
structure TodoList where
  tasks : List Task
  next_id : Nat
deriving DecidableEq

/-- `impl Default for TodoList`: empty tasks, `next_id = 1`. -/
def TodoList.defaultList : TodoList := ⟨[], 1⟩

/-- `enum TodoError` from `src/cli.rs`. -/
inductive TodoError
  | UnknownCommand
  | MissingArgument
  | TaskNotFound
  | InvalidId
  | SaveError
  | PriorityError
deriving DecidableEq

/-- `TodoList::add`: issue `next_id` as the new task's id, push the task,
set `next_id` to `id + 1` (a `u32` addition, hence the modulus), and return
the new task. -/
def TodoList.add (l : TodoList) (text : String) : Task × TodoList :=
  let id := l.next_id
  let t : Task := ⟨id, text, false, Priority.defaultPriority⟩
  (t, ⟨l.tasks ++ [t], (id + 1) % U32_MOD⟩)

/-- The `self.tasks.iter_mut().find(|t| t.id == id)` pattern shared by
`mark_done` and `set_priority`: locate the first task with the given id,
replace it in place by `f` of it, and return the updated task together with
the updated task vector; `none` when no task matches. -/
def updateFirst (f : Task → Task) : List Task → Nat → Option (Task × List Task)
  | [], _ => none
  | t :: ts, id =>
    if t.id = id then
      let t' := f t
      some (t', t' :: ts)
    else
      (updateFirst f ts id).map (fun p => (p.1, t :: p.2))

/-- `TodoList::mark_done`: set `done = true` on the first task whose id
matches; `TaskNotFound` otherwise. Returns the command result together with
the list state after the call. -/
def TodoList.mark_done (l : TodoList) (id : Nat) :
    Except TodoError Task × TodoList :=
  match updateFirst (fun t => { t with done := true }) l.tasks id with
  | some (t, ts) => (.ok t, ⟨ts, l.next_id⟩)
  | none => (.error .TaskNotFound, l)

/-- `TodoList::set_priority`: overwrite `priority` on the first task whose id
matches; `TaskNotFound` otherwise. -/
def TodoList.set_priority (l : TodoList) (id : Nat) (p : Priority) :
    Except TodoError Task × TodoList :=
  match updateFirst (fun t => { t with priority := p }) l.tasks id with
  | some (t, ts) => (.ok t, ⟨ts, l.next_id⟩)
  | none => (.error .TaskNotFound, l)

/-- The full sequence, as iterated by `print_list`. -/
def TodoList.list_all (l : TodoList) : List Task := l.tasks

/-- The selection iterated by `print_done`: `tasks.iter().filter(|t| t.done)`. -/
def TodoList.list_done (l : TodoList) : List Task :=
  l.tasks.filter (fun t => t.done)

/-- The selection iterated by `print_todo`: `filter(|t| !t.done)`. -/
def TodoList.list_todo (l : TodoList) : List Task :=
  l.tasks.filter (fun t => !t.done)

/-- The selection iterated by `print_by_priority`:
`filter(|t| t.priority == priority)`. -/
def TodoList.list_by_priority (l : TodoList) (p : Priority) : List Task :=
  l.tasks.filter (fun t => decide (t.priority = p))

/-- Iterate `add` over a list of texts (a sequence of `add` calls). -/
def addAll (l : TodoList) : List String → TodoList
  | [] => l
  | s :: ss => addAll (l.add s).2 ss

/-- The ids returned by a sequence of `add` calls, in call order. -/
def returnedIds (l : TodoList) : List String → List Nat
  | [] => []
  | s :: ss => (l.add s).1.id :: returnedIds (l.add s).2 ss

/-- `enum Command` from `src/cli.rs`. -/
inductive Command
  | Add (text : String)
  | List
  | ListDone
  | ListTodo
  | ListByPriority (priority : Priority)
  | Done (id : Nat)
  | SetPriority (id : Nat) (priority : Priority)
  | Help
deriving DecidableEq

/-- Rust's `u8::to_ascii_lowercase` lifted to characters: shift `A..Z` down
by the ASCII case distance, leave everything else alone. -/
def asciiLower (c : Char) : Char :=
  if 'A' ≤ c ∧ c ≤ 'Z' then Char.ofNat (c.toNat + 32) else c

/-- A string with every character ASCII-lowercased. -/
def lowerStr (s : String) : String := ⟨s.data.map asciiLower⟩

/-- `str::eq_ignore_ascii_case`: the two strings agree after ASCII
lowercasing. -/
def eqIgnoreAsciiCase (a b : String) : Bool :=
  decide (lowerStr a = lowerStr b)

/-- `impl FromStr for Priority` from `src/model.rs`: case-insensitive match
against the full names and abbreviations; `PriorityError` otherwise. -/
def Priority.fromStr (s : String) : Except TodoError Priority :=
  if eqIgnoreAsciiCase s "low" || eqIgnoreAsciiCase s "l" then
    .ok .Low
  else if eqIgnoreAsciiCase s "medium" || eqIgnoreAsciiCase s "med"
      || eqIgnoreAsciiCase s "m" then
    .ok .Medium
  else if eqIgnoreAsciiCase s "high" || eqIgnoreAsciiCase s "h" then
    .ok .High
  else
    .error .PriorityError

/-- `str::parse::<u32>`: an optional leading `+`, then one or more decimal
digits whose value fits in a `u32`; `none` on any other shape (the
`From<ParseIntError>` impl maps that failure to `InvalidId` at use sites). -/
def parseU32 (s : String) : Option Nat :=
  let digits := if s.data.head? = some '+' then s.data.tail else s.data
  if digits.isEmpty then none
  else if digits.all (fun c => c.isDigit) then
    let n := digits.foldl (fun acc c => acc * 10 + (c.toNat - 48)) 0
    if n < U32_MOD then some n else none
  else none

/-- `parse_command` from `src/cli.rs`: the first argument selects the
subcommand, the remaining arguments are consumed positionally with the same
error choices as the source (`?` on `parse()` goes through
`From<ParseIntError> for TodoError`, i.e. `InvalidId`, for ids, and through
`FromStr for Priority`, i.e. `PriorityError`, for priorities). -/
def parse_command : List String → Except TodoError Command
  | [] => .error .UnknownCommand
  | sub :: rest =>
    match sub with
    | "add" =>
      match rest with
      | [] => .error .MissingArgument
      | text :: _ => .ok (.Add text)
    | "list" => .ok .List
    | "list-done" => .ok .ListDone
    | "list-todo" => .ok .ListTodo
    | "list-prio" =>
      match rest with
      | [] => .error .PriorityError
      | tok :: _ =>
        match Priority.fromStr tok with
        | .ok p => .ok (.ListByPriority p)
        | .error e => .error e
    | "done" =>
      match rest with
      | [] => .error .MissingArgument
      | tok :: _ =>
        match parseU32 tok with
        | some id => .ok (.Done id)
        | none => .error .InvalidId
    | "set-prio" =>
      match rest with
      | [] => .error .InvalidId
      | tok :: rest2 =>
        match parseU32 tok with
        | none => .error .InvalidId
        | some id =>
          match rest2 with
          | [] => .error .PriorityError
          | ptok :: _ =>
            match Priority.fromStr ptok with
            | .ok p => .ok (.SetPriority id p)
            | .error e => .error e
    | "help" => .ok .Help
    | _ => .error .UnknownCommand

/-! ### Persistence (`src/persistence.rs`)

The serde JSON layer is modelled at the level of JSON values: a file either
holds a JSON document or text that is not valid JSON ("garbage"), and the
file system is a map from paths to file contents. `serde_json::to_string_pretty`
followed by `serde_json::from_str` is the identity on JSON values, so saving
stores the serialized JSON value and loading deserializes it. -/

/-- JSON values as produced/consumed by serde for this data model
(`num` covers the non-negative integers; any other JSON numeral would fail
`u32` deserialization just like a wrong-typed value). -/
inductive Json
  | null
  | bool (b : Bool)
  | num (n : Nat)
  | str (s : String)
  | arr (elems : List Json)
  | obj (fields : List (String × Json))

/-- Field lookup in a JSON object, as serde's struct deserializer does. -/
def Json.getField (j : Json) (key : String) : Option Json :=
  match j with
  | .obj fs => (fs.find? (fun f => decide (f.1 = key))).map (fun f => f.2)
  | _ => none

/-- serde `Serialize` for `Priority`: a unit enum variant serializes as the
variant-name string. -/
def Priority.toJson : Priority → Json
  | .Low => .str "Low"
  | .Medium => .str "Medium"
  | .High => .str "High"

/-- serde `Deserialize` for `Priority`. -/
def Priority.fromJson : Json → Option Priority
  | .str "Low" => some .Low
  | .str "Medium" => some .Medium
  | .str "High" => some .High
  | _ => none

/-- serde `Deserialize` for a `u32` field: a non-negative integer below
`2^32`. -/
def jsonToU32 : Json → Option Nat
  | .num n => if n < U32_MOD then some n else none
  | _ => none

/-- serde `Deserialize` for a `String` field. -/
def jsonToString : Json → Option String
  | .str s => some s
  | _ => none

/-- serde `Deserialize` for a `bool` field. -/
def jsonToBool : Json → Option Bool
  | .bool b => some b
  | _ => none

/-- serde `Serialize` for `Task`: a struct serializes as an object with one
field per struct field. -/
def Task.toJson (t : Task) : Json :=
  .obj [("id", .num t.id), ("text", .str t.text), ("done", .bool t.done),
        ("priority", t.priority.toJson)]

/-- serde `Deserialize` for `Task`. -/
def Task.fromJson (j : Json) : Option Task :=
  match j.getField "id" >>= jsonToU32 with
  | none => none
  | some id =>
    match j.getField "text" >>= jsonToString with
    | none => none
    | some text =>
      match j.getField "done" >>= jsonToBool with
      | none => none
      | some done =>
        match j.getField "priority" >>= Priority.fromJson with
        | none => none
        | some priority => some ⟨id, text, done, priority⟩

/-- serde `Deserialize` for `Vec<Task>`: every element must deserialize. -/
def tasksFromJson : List Json → Option (List Task)
  | [] => some []
  | j :: js =>
    match Task.fromJson j, tasksFromJson js with
    | some t, some ts => some (t :: ts)
    | _, _ => none

/-- serde `Serialize` for `TodoList`. -/
def TodoList.toJson (l : TodoList) : Json :=
  .obj [("tasks", .arr (l.tasks.map Task.toJson)), ("next_id", .num l.next_id)]

/-- serde `Deserialize` for `TodoList`. -/
def TodoList.fromJson (j : Json) : Option TodoList :=
  match j.getField "tasks" with
  | some (.arr js) =>
    match tasksFromJson js with
    | none => none
    | some tasks =>
      match j.getField "next_id" >>= jsonToU32 with
      | none => none
      | some nid => some ⟨tasks, nid⟩
  | _ => none

/-- Contents of a file: either a JSON document or text on which
`serde_json::from_str` fails outright. -/
inductive FileData
  | json (j : Json)
  | garbage

/-- The file system: a map from paths to contents; `none` is a missing file
(`fs::read_to_string` errors). -/
def FS : Type := String → Option FileData

/-- `load_todo_list`: read the file; on read error return `TodoList::default()`;
otherwise deserialize and `unwrap_or_default()`. -/
def load_todo_list (fs : FS) (path : String) : TodoList :=
  match fs path with
  | none => TodoList.defaultList
  | some .garbage => TodoList.defaultList
  | some (.json j) => (TodoList.fromJson j).getD TodoList.defaultList

/-- `save_todo_list`: serialize the list and write it to the path (the write
itself modelled as succeeding; a failed write leaves `SaveError`, which no
claim here depends on). -/
def save_todo_list (fs : FS) (path : String) (l : TodoList) : FS :=
  fun q => if q = path then some (.json l.toJson) else fs q

/-! ### Helper lemmas about `updateFirst` -/

/-- `updateFirst` fails exactly when no task has the id. -/
lemma updateFirst_eq_none (f : Task → Task) (ts : List Task) (id : Nat) :
    updateFirst f ts id = none ↔ ∀ t ∈ ts, t.id ≠ id := by
  induction ts with
  | nil => simp [updateFirst]
  | cons t ts ih =>
    by_cases h : t.id = id
    · simp [updateFirst, h]
    · simp [updateFirst, h, ih]

/-- When some task has the id, `updateFirst f` succeeds at the first matching
index `i`: the returned task is `f` of the task at `i`, and the returned
vector is the original with only position `i` replaced. -/
lemma updateFirst_spec (ts : List Task) (id : Nat) (h : ∃ t ∈ ts, t.id = id) :
    ∃ i, ∃ hi : i < ts.length, (ts[i]).id = id ∧
      ∀ f : Task → Task,
        updateFirst f ts id =
          some (f (ts[i]), ts.set i (f (ts[i]))) := by
  induction ts with
  | nil => simp at h
  | cons t ts ih =>
    by_cases ht : t.id = id
    · exact ⟨0, by simp, ht, fun f => by simp [updateFirst, ht]⟩
    · have h' : ∃ u ∈ ts, u.id = id := by
        obtain ⟨u, hu, hid⟩ := h
        rcases List.mem_cons.1 hu with rfl | hu'
        · exact absurd hid ht
        · exact ⟨u, hu', hid⟩
      obtain ⟨i, hi, hgi, hf⟩ := ih h'
      refine ⟨i + 1, Nat.succ_lt_succ hi, by simpa using hgi, fun f => ?_⟩
      simp [updateFirst, ht, hf f]

/-- Re-running `updateFirst` after a success finds the same task again and
changes nothing more, provided `f` preserves ids and is idempotent. -/
lemma updateFirst_again (f : Task → Task) (hid : ∀ t, (f t).id = t.id)
    (hidem : ∀ t, f (f t) = f t) (ts : List Task) (id : Nat) :
    ∀ t' ts', updateFirst f ts id = some (t', ts') →
      updateFirst f ts' id = some (t', ts') := by
  induction ts with
  | nil => intro t' ts' h; simp [updateFirst] at h
  | cons u ts ih =>
    intro t' ts' h
    by_cases hu : u.id = id
    · rw [updateFirst, if_pos hu] at h
      simp only [Option.some.injEq, Prod.mk.injEq] at h
      obtain ⟨rfl, rfl⟩ := h
      rw [updateFirst, if_pos (by rw [hid u]; exact hu)]
      simp [hidem u]
    · rw [updateFirst, if_neg hu] at h
      rw [Option.map_eq_some'] at h
      obtain ⟨⟨a, bs⟩, ha, h2⟩ := h
      simp only [Prod.mk.injEq] at h2
      obtain ⟨rfl, rfl⟩ := h2
      rw [updateFirst, if_neg hu, ih _ _ ha]
      rfl

/-- C2. `mark_done` on an absent id fails with `TaskNotFound` and returns the
list unchanged: same tasks (hence same count and contents) and same
`next_id`. -/
theorem mark_done_not_found (l : TodoList) (id : Nat)
    (h : ∀ t ∈ l.tasks, t.id ≠ id) :
    l.mark_done id = (.error .TaskNotFound, l) := by
  rw [TodoList.mark_done, (updateFirst_eq_none _ _ _).2 h]

theorem mark_done_not_found_witness :
    (∀ t ∈ (⟨[⟨1, "a", false, .Low⟩], 2⟩ : TodoList).tasks, t.id ≠ 2) ∧
    (⟨[⟨1, "a", false, .Low⟩], 2⟩ : TodoList).mark_done 2 =
      (.error .TaskNotFound, (⟨[⟨1, "a", false, .Low⟩], 2⟩ : TodoList)) :=
  ⟨by decide, mark_done_not_found _ 2 (by decide)⟩

/-- C3. `mark_done` is idempotent: when a task with the id exists, the call
succeeds with a task whose `done` is `true`, and calling it again on the
resulting list succeeds with the same task and leaves the list in the same
state. -/
theorem mark_done_idempotent (l : TodoList) (id : Nat)
    (h : ∃ t ∈ l.tasks, t.id = id) :
    ∃ t' l', l.mark_done id = (.ok t', l') ∧ t'.done = true ∧
      l'.mark_done id = (.ok t', l') := by
  obtain ⟨i, hi, hgi, hf⟩ := updateFirst_spec l.tasks id h
  refine ⟨{ l.tasks[i] with done := true },
    ⟨l.tasks.set i { l.tasks[i] with done := true }, l.next_id⟩,
    ?_, rfl, ?_⟩
  · simp [TodoList.mark_done, hf (fun t => { t with done := true })]
  · have h2 := updateFirst_again (fun t => { t with done := true })
      (fun t => rfl) (fun t => rfl) l.tasks id _ _
      (hf (fun t => { t with done := true }))
    simp [TodoList.mark_done, h2]

theorem mark_done_idempotent_witness :
    (∃ t ∈ (⟨[⟨1, "a", false, .Low⟩], 2⟩ : TodoList).tasks, t.id = 1) ∧
    (∃ t' l', (⟨[⟨1, "a", false, .Low⟩], 2⟩ : TodoList).mark_done 1 =
        (.ok t', l') ∧ t'.done = true ∧ l'.mark_done 1 = (.ok t', l')) :=
  ⟨by decide, mark_done_idempotent _ 1 (by decide)⟩

/-- C10. Frame property of the two successful mutations: when a task with the
id exists, there is an index `i` holding a task with that id such that
`mark_done` replaces exactly position `i` by that task with only `done`
flipped to `true`, and `set_priority` replaces exactly position `i` by that
task with only `priority` overwritten; in both cases every other position,
the vector length and order (`List.set`), and `next_id` are untouched, and
the task's `id` and `text` are preserved by the record update. -/
theorem ops_frame (l : TodoList) (id : Nat) (p : Priority)
    (h : ∃ t ∈ l.tasks, t.id = id) :
    ∃ i, ∃ hi : i < l.tasks.length,
      (l.tasks[i]).id = id ∧
      l.mark_done id =
        (.ok { l.tasks[i] with done := true },
          ⟨l.tasks.set i { l.tasks[i] with done := true },
            l.next_id⟩) ∧
      l.set_priority id p =
        (.ok { l.tasks[i] with priority := p },
          ⟨l.tasks.set i { l.tasks[i] with priority := p },
            l.next_id⟩) := by
  obtain ⟨i, hi, hgi, hf⟩ := updateFirst_spec l.tasks id h
  exact ⟨i, hi, hgi,
    by simp [TodoList.mark_done, hf (fun t => { t with done := true })],
    by simp [TodoList.set_priority, hf (fun t => { t with priority := p })]⟩

theorem ops_frame_witness :
    (∃ t ∈ (⟨[⟨1, "a", false, .Low⟩, ⟨2, "b", false, .Low⟩], 3⟩ :
        TodoList).tasks, t.id = 2) ∧
    (∃ i, ∃ hi : i < (⟨[⟨1, "a", false, .Low⟩, ⟨2, "b", false, .Low⟩], 3⟩ :
        TodoList).tasks.length,
      ((⟨[⟨1, "a", false, .Low⟩, ⟨2, "b", false, .Low⟩], 3⟩ :
          TodoList).tasks[i]).id = 2 ∧
      (⟨[⟨1, "a", false, .Low⟩, ⟨2, "b", false, .Low⟩], 3⟩ :
          TodoList).mark_done 2 =
        (.ok { (⟨[⟨1, "a", false, .Low⟩, ⟨2, "b", false, .Low⟩], 3⟩ :
            TodoList).tasks[i] with done := true },
          ⟨(⟨[⟨1, "a", false, .Low⟩, ⟨2, "b", false, .Low⟩], 3⟩ :
              TodoList).tasks.set i
              { (⟨[⟨1, "a", false, .Low⟩, ⟨2, "b", false, .Low⟩], 3⟩ :
                  TodoList).tasks[i] with done := true }, 3⟩) ∧
      (⟨[⟨1, "a", false, .Low⟩, ⟨2, "b", false, .Low⟩], 3⟩ :
          TodoList).set_priority 2 .High =
        (.ok { (⟨[⟨1, "a", false, .Low⟩, ⟨2, "b", false, .Low⟩], 3⟩ :
            TodoList).tasks[i] with priority := .High },
          ⟨(⟨[⟨1, "a", false, .Low⟩, ⟨2, "b", false, .Low⟩], 3⟩ :
              TodoList).tasks.set i
              { (⟨[⟨1, "a", false, .Low⟩, ⟨2, "b", false, .Low⟩], 3⟩ :
                  TodoList).tasks[i] with priority := .High },
            3⟩)) :=
  ⟨by decide, ops_frame _ 2 .High (by decide)⟩

/-! ### Filter partitions -/

/-- A boolean filter and its complement split a task vector's length. -/
lemma filter_length_split (p : Task → Bool) (ts : List Task) :
    (ts.filter p).length + (ts.filter (fun t => !p t)).length = ts.length := by
  induction ts with
  | nil => rfl
  | cons t ts ih =>
    by_cases h : p t <;> simp [List.filter_cons, h] <;> omega

/-- The three priority filters split a task vector's length. -/
lemma priority_filter_length (ts : List Task) :
    (ts.filter (fun t => decide (t.priority = .Low))).length +
      (ts.filter (fun t => decide (t.priority = .Medium))).length +
      (ts.filter (fun t => decide (t.priority = .High))).length =
      ts.length := by
  induction ts with
  | nil => rfl
  | cons t ts ih =>
    cases hp : t.priority <;> simp [List.filter_cons, hp] <;> omega

/-- C8. `list_done` and `list_todo` are order-preserving subsequences of
`list_all`, a task of the list is in `list_done` exactly when its `done`
flag is set and in `list_todo` exactly when it is not (hence the two are
disjoint and jointly cover `list_all`), and their lengths add up to the full
length, so together they are exactly the tasks of `list_all`. -/
theorem done_todo_partition (l : TodoList) :
    l.list_done.Sublist l.list_all ∧
    l.list_todo.Sublist l.list_all ∧
    (∀ t ∈ l.list_all,
      (t ∈ l.list_done ↔ t.done = true) ∧ (t ∈ l.list_todo ↔ t.done = false)) ∧
    (∀ t ∈ l.list_done, t ∉ l.list_todo) ∧
    (∀ t ∈ l.list_all, t ∈ l.list_done ∨ t ∈ l.list_todo) ∧
    l.list_done.length + l.list_todo.length = l.list_all.length := by
  refine ⟨List.filter_sublist _, List.filter_sublist _, ?_, ?_, ?_, ?_⟩
  · intro t ht
    simp only [TodoList.list_all] at ht
    constructor
    · simp [TodoList.list_done, List.mem_filter, ht]
    · simp [TodoList.list_todo, List.mem_filter, ht]
  · intro t ht
    simp only [TodoList.list_done, TodoList.list_todo, List.mem_filter] at ht ⊢
    simp [ht.2]
  · intro t ht
    simp only [TodoList.list_all] at ht
    by_cases hd : t.done
    · exact Or.inl (by simp [TodoList.list_done, List.mem_filter, ht, hd])
    · exact Or.inr (by simp [TodoList.list_todo, List.mem_filter, ht, hd])
  · exact filter_length_split (fun t => t.done) l.tasks

/-- C9. The three priority buckets form a strict partition of `list_all`
(a task of the list is in bucket `q` exactly when its priority is `q`, and
the three bucket lengths add up to the full length), and a successful
`set_priority id p` returns a task with priority `p` that lies in bucket `p`
of the resulting list and in no other bucket. -/
theorem priority_buckets_partition (l : TodoList) (id : Nat) (p : Priority)
    (h : ∃ t ∈ l.tasks, t.id = id) :
    (∀ t ∈ l.list_all, ∀ q, t ∈ l.list_by_priority q ↔ t.priority = q) ∧
    (l.list_by_priority .Low).length + (l.list_by_priority .Medium).length +
      (l.list_by_priority .High).length = l.list_all.length ∧
    ∃ t' l', l.set_priority id p = (.ok t', l') ∧ t'.priority = p ∧
      t' ∈ l'.list_by_priority p ∧
      ∀ q, q ≠ p → t' ∉ l'.list_by_priority q := by
  refine ⟨?_, priority_filter_length l.tasks, ?_⟩
  · intro t ht q
    simp only [TodoList.list_all] at ht
    simp [TodoList.list_by_priority, List.mem_filter, ht]
  · obtain ⟨i, hi, hgi, hf⟩ := updateFirst_spec l.tasks id h
    refine ⟨{ l.tasks[i] with priority := p },
      ⟨l.tasks.set i { l.tasks[i] with priority := p }, l.next_id⟩, ?_, rfl,
      ?_, ?_⟩
    · simp [TodoList.set_priority, hf (fun t => { t with priority := p })]
    · have hmem : ({ l.tasks[i] with priority := p } : Task) ∈
          l.tasks.set i { l.tasks[i] with priority := p } :=
        List.mem_set l.tasks i hi _
      simp [TodoList.list_by_priority, List.mem_filter, hmem]
    · intro q hq hmem
      simp [TodoList.list_by_priority, List.mem_filter] at hmem
      exact hq hmem.2.symm

theorem priority_buckets_partition_witness :
    (∃ t ∈ (⟨[⟨1, "a", false, .Low⟩, ⟨2, "b", true, .Medium⟩], 3⟩ :
        TodoList).tasks, t.id = 1) ∧
    ((∀ t ∈ (⟨[⟨1, "a", false, .Low⟩, ⟨2, "b", true, .Medium⟩], 3⟩ :
          TodoList).list_all, ∀ q,
        t ∈ (⟨[⟨1, "a", false, .Low⟩, ⟨2, "b", true, .Medium⟩], 3⟩ :
          TodoList).list_by_priority q ↔ t.priority = q) ∧
      ((⟨[⟨1, "a", false, .Low⟩, ⟨2, "b", true, .Medium⟩], 3⟩ :
          TodoList).list_by_priority .Low).length +
        ((⟨[⟨1, "a", false, .Low⟩, ⟨2, "b", true, .Medium⟩], 3⟩ :
          TodoList).list_by_priority .Medium).length +
        ((⟨[⟨1, "a", false, .Low⟩, ⟨2, "b", true, .Medium⟩], 3⟩ :
          TodoList).list_by_priority .High).length =
        (⟨[⟨1, "a", false, .Low⟩, ⟨2, "b", true, .Medium⟩], 3⟩ :
          TodoList).list_all.length ∧
      ∃ t' l', (⟨[⟨1, "a", false, .Low⟩, ⟨2, "b", true, .Medium⟩], 3⟩ :
          TodoList).set_priority 1 .High = (.ok t', l') ∧
        t'.priority = .High ∧ t' ∈ l'.list_by_priority .High ∧
        ∀ q, q ≠ .High → t' ∉ l'.list_by_priority q) :=
  ⟨by decide, priority_buckets_partition _ 1 .High (by decide)⟩

/-! ### Id assignment under sequences of `add` calls -/

lemma add_snd_next_id (l : TodoList) (s : String) :
    (l.add s).2.next_id = (l.next_id + 1) % U32_MOD := rfl

lemma U32_MOD_pos : 0 < U32_MOD := by norm_num [U32_MOD]

/-- The counter after `n` adds is the starting counter plus `n`, reduced
modulo `2 ^ 32`. -/
lemma addAll_next_id (ss : List String) :
    ∀ l : TodoList, l.next_id < U32_MOD →
      (addAll l ss).next_id = (l.next_id + ss.length) % U32_MOD := by
  induction ss with
  | nil => intro l h; simp [addAll, Nat.mod_eq_of_lt h]
  | cons s ss ih =>
    intro l h
    rw [addAll, ih _ (by rw [add_snd_next_id]; exact Nat.mod_lt _ U32_MOD_pos),
      add_snd_next_id, Nat.mod_add_mod, List.length_cons]
    congr 1
    omega

/-- The ids returned by `n` adds are the counter, counter plus one, …,
each reduced modulo `2 ^ 32`. -/
lemma returnedIds_formula (ss : List String) :
    ∀ l : TodoList, l.next_id < U32_MOD →
      returnedIds l ss =
        (List.range ss.length).map (fun k => (l.next_id + k) % U32_MOD) := by
  induction ss with
  | nil => intro l _; simp [returnedIds]
  | cons s ss ih =>
    intro l h
    rw [returnedIds,
      ih (l.add s).2 (by rw [add_snd_next_id]; exact Nat.mod_lt _ U32_MOD_pos),
      List.length_cons, List.range_succ_eq_map, List.map_cons, List.map_map]
    congr 1
    · show l.next_id = (l.next_id + 0) % U32_MOD
      rw [Nat.add_zero, Nat.mod_eq_of_lt h]
    · refine List.map_congr_left (fun k _ => ?_)
      show ((l.add s).2.next_id + k) % U32_MOD = (l.next_id + (k + 1)) % U32_MOD
      rw [add_snd_next_id, Nat.mod_add_mod]
      congr 1
      omega

/-- C1 (amended). For every sequence of at most `2 ^ 32 - 2` add calls from a
fresh list, the returned ids are `1, 2, …, n` in call order (no gaps, no
repeats), and after every prefix of `k` adds the counter equals `k + 1` and
strictly exceeds every id issued so far. -/
theorem add_ids_sequential (ss : List String) (h : ss.length ≤ U32_MOD - 2) :
    returnedIds TodoList.defaultList ss =
      (List.range ss.length).map (fun k => k + 1) ∧
    ∀ k, k ≤ ss.length →
      (addAll TodoList.defaultList (ss.take k)).next_id = k + 1 ∧
      ∀ i ∈ returnedIds TodoList.defaultList (ss.take k),
        i < (addAll TodoList.defaultList (ss.take k)).next_id := by
  have hdef : (TodoList.defaultList).next_id = 1 := rfl
  have hM : U32_MOD = 2 ^ 32 := rfl
  have hlt : (TodoList.defaultList).next_id < U32_MOD := by
    rw [hdef]; norm_num [U32_MOD]
  have hids : ∀ m : Nat, m ≤ U32_MOD - 1 →
      returnedIds TodoList.defaultList (ss.take m) =
        (List.range (ss.take m).length).map (fun k => k + 1) := by
    intro m hm
    rw [returnedIds_formula _ _ hlt, hdef]
    refine List.map_congr_left (fun k hk => ?_)
    have hk' : k < (ss.take m).length := List.mem_range.1 hk
    have hkm : k < m := lt_of_lt_of_le hk' (by simp [List.length_take])
    have : 1 + k < U32_MOD := by
      have : 0 < U32_MOD := U32_MOD_pos
      omega
    rw [Nat.mod_eq_of_lt this, Nat.add_comm]
  have hM2 : 2 ≤ U32_MOD := by norm_num [U32_MOD]
  constructor
  · have := hids ss.length (by omega)
    simpa [List.take_length] using this
  · intro k hk
    have hlen : (ss.take k).length = k := by simp [List.length_take, hk]
    have hnext : (addAll TodoList.defaultList (ss.take k)).next_id = k + 1 := by
      rw [addAll_next_id _ _ hlt, hdef, hlen, Nat.mod_eq_of_lt (by omega),
        Nat.add_comm]
    refine ⟨hnext, fun i hi => ?_⟩
    rw [hids k (by omega), hlen] at hi
    obtain ⟨j, hj, rfl⟩ := List.mem_map.1 hi
    have := List.mem_range.1 hj
    omega

theorem add_ids_sequential_witness :
    (["a", "b", "c"] : List String).length ≤ U32_MOD - 2 ∧
    (returnedIds TodoList.defaultList ["a", "b", "c"] =
        (List.range 3).map (fun k => k + 1) ∧
      ∀ k, k ≤ 3 →
        (addAll TodoList.defaultList (List.take k ["a", "b", "c"])).next_id =
          k + 1 ∧
        ∀ i ∈ returnedIds TodoList.defaultList (List.take k ["a", "b", "c"]),
          i < (addAll TodoList.defaultList
            (List.take k ["a", "b", "c"])).next_id) :=
  ⟨by decide, add_ids_sequential ["a", "b", "c"] (by decide)⟩

/-- C1 (counterexample). After `2 ^ 32 - 1` adds from a fresh list the `u32`
counter has wrapped to `0`: the id `1` was issued, yet `next_id` does not
exceed it, refuting the unbounded claim (a debug build would instead abort
in the last `add`). -/
theorem add_ids_overflow_cex :
    1 ∈ returnedIds TodoList.defaultList (List.replicate (U32_MOD - 1) "x") ∧
    (addAll TodoList.defaultList (List.replicate (U32_MOD - 1) "x")).next_id
      = 0 ∧
    ¬ (1 < (addAll TodoList.defaultList
        (List.replicate (U32_MOD - 1) "x")).next_id) := by
  have hdef : (TodoList.defaultList).next_id = 1 := rfl
  have hlt : (TodoList.defaultList).next_id < U32_MOD := by
    rw [hdef]; norm_num [U32_MOD]
  have hM2 : 2 ≤ U32_MOD := by norm_num [U32_MOD]
  have hnext : (addAll TodoList.defaultList
      (List.replicate (U32_MOD - 1) "x")).next_id = 0 := by
    rw [addAll_next_id _ _ hlt, hdef, List.length_replicate]
    have : 1 + (U32_MOD - 1) = U32_MOD := by omega
    rw [this, Nat.mod_self]
  refine ⟨?_, hnext, by rw [hnext]; omega⟩
  rw [returnedIds_formula _ _ hlt, List.length_replicate, hdef]
  refine List.mem_map.2 ⟨0, List.mem_range.2 (by omega), ?_⟩
  rw [Nat.add_zero, Nat.mod_eq_of_lt (by omega)]

/-! ### Priority parsing and command parsing -/

/-- C4. `Priority` parsing accepts exactly the tokens
`low`/`l` (to `Low`), `medium`/`med`/`m` (to `Medium`), `high`/`h` (to
`High`), each compared after ASCII lowercasing (case-insensitively), and
fails with `PriorityError` on every other token. -/
theorem priority_fromStr_classifies (s : String) :
    (Priority.fromStr s = .ok .Low ↔ lowerStr s = "low" ∨ lowerStr s = "l") ∧
    (Priority.fromStr s = .ok .Medium ↔
      lowerStr s = "medium" ∨ lowerStr s = "med" ∨ lowerStr s = "m") ∧
    (Priority.fromStr s = .ok .High ↔
      lowerStr s = "high" ∨ lowerStr s = "h") ∧
    (Priority.fromStr s = .error .PriorityError ↔
      lowerStr s ∉ (["low", "l", "medium", "med", "m", "high", "h"] :
        List String)) := by
  have e : ∀ t : String,
      eqIgnoreAsciiCase s t = true ↔ lowerStr s = lowerStr t :=
    fun t => by simp [eqIgnoreAsciiCase]
  have e1 := e "low"; have e2 := e "l"
  have e3 := e "medium"; have e4 := e "med"; have e5 := e "m"
  have e6 := e "high"; have e7 := e "h"
  rw [show lowerStr "low" = "low" from by decide] at e1
  rw [show lowerStr "l" = "l" from by decide] at e2
  rw [show lowerStr "medium" = "medium" from by decide] at e3
  rw [show lowerStr "med" = "med" from by decide] at e4
  rw [show lowerStr "m" = "m" from by decide] at e5
  rw [show lowerStr "high" = "high" from by decide] at e6
  rw [show lowerStr "h" = "h" from by decide] at e7
  unfold Priority.fromStr
  split_ifs with h1 h2 h3
  · simp only [Bool.or_eq_true, e1, e2] at h1
    rcases h1 with h | h <;> simp [h]
  · simp only [Bool.or_eq_true, e3, e4, e5] at h2
    rcases h2 with (h | h) | h <;> simp [h]
  · simp only [Bool.or_eq_true, e6, e7] at h3
    rcases h3 with h | h <;> simp [h]
  · simp only [Bool.or_eq_true, e1, e2] at h1
    simp only [Bool.or_eq_true, e3, e4, e5] at h2
    simp only [Bool.or_eq_true, e6, e7] at h3
    push_neg at h1 h2 h3
    simp [h1.1, h1.2, h2.1.1, h2.1.2, h2.2, h3.1, h3.2]

/-- C5 (counterexample). The token `"0"` is a valid `u32`, so
`parse_command ["done", "0"]` does produce a `Done` command (with id `0`),
contradicting the claim that a non-positive id token fails with
`InvalidId`. -/
theorem done_zero_parses : parse_command ["done", "0"] = .ok (.Done 0) := rfl

/-- C5 (amended). Parsing `done` with no id argument fails with
`MissingArgument`, and an id token that does not parse as a `u32` (any
`tok` with `parseU32 tok = none`: non-numeric, negative, or out of `u32`
range) fails with `InvalidId`; the token `"0"`, however, is accepted and
yields `Done 0` (a later `mark_done 0` then fails with `TaskNotFound`,
since ids start at 1). -/
theorem done_parse_amended (tok : String) (hbad : parseU32 tok = none) :
    parse_command ["done"] = .error .MissingArgument ∧
    parse_command ["done", tok] = .error .InvalidId ∧
    parse_command ["done", "0"] = .ok (.Done 0) := by
  refine ⟨rfl, ?_, rfl⟩
  simp [parse_command, hbad]

theorem done_parse_amended_witness :
    parseU32 "abc" = none ∧
    (parse_command ["done"] = .error .MissingArgument ∧
      parse_command ["done", "abc"] = .error .InvalidId ∧
      parse_command ["done", "0"] = .ok (.Done 0)) :=
  ⟨by decide, done_parse_amended "abc" (by decide)⟩

/-! ### Persistence round trip and load fallback -/

lemma priority_json_roundtrip (p : Priority) :
    Priority.fromJson p.toJson = some p := by
  cases p <;> rfl

lemma task_json_roundtrip (t : Task) (h : t.id < U32_MOD) :
    Task.fromJson t.toJson = some t := by
  simp [Task.toJson, Task.fromJson, Json.getField, List.find?, jsonToU32,
    jsonToString, jsonToBool, priority_json_roundtrip, h]

lemma tasks_json_roundtrip (ts : List Task) (h : ∀ t ∈ ts, t.id < U32_MOD) :
    tasksFromJson (ts.map Task.toJson) = some ts := by
  induction ts with
  | nil => rfl
  | cons t ts ih =>
    rw [List.map_cons, tasksFromJson,
      task_json_roundtrip t (h t (List.mem_cons_self t ts)),
      ih (fun u hu => h u (List.mem_cons_of_mem t hu))]

lemma todoList_json_roundtrip (l : TodoList)
    (hid : ∀ t ∈ l.tasks, t.id < U32_MOD) (hnid : l.next_id < U32_MOD) :
    TodoList.fromJson l.toJson = some l := by
  rw [TodoList.toJson, TodoList.fromJson]
  simp [Json.getField, List.find?, tasks_json_roundtrip l.tasks hid,
    jsonToU32, hnid]

/-- C6. Save-then-load round trip: for every `TodoList` whose `u32` fields
are in range (as any actual Rust value's are), saving to a path and loading
from that path yields the same list: same tasks (same ids, `done` and
`priority` values, in the same order) and same `next_id`. -/
theorem save_load_roundtrip (fs : FS) (path : String) (l : TodoList)
    (hid : ∀ t ∈ l.tasks, t.id < U32_MOD) (hnid : l.next_id < U32_MOD) :
    load_todo_list (save_todo_list fs path l) path = l := by
  rw [load_todo_list]
  have : save_todo_list fs path l path = some (.json l.toJson) := by
    rw [save_todo_list, if_pos rfl]
  rw [this]
  show (TodoList.fromJson l.toJson).getD TodoList.defaultList = l
  rw [todoList_json_roundtrip l hid hnid]
  rfl

theorem save_load_roundtrip_witness :
    (∀ t ∈ (⟨[⟨1, "a", true, .High⟩, ⟨2, "b", false, .Low⟩], 3⟩ :
        TodoList).tasks, t.id < U32_MOD) ∧
    (⟨[⟨1, "a", true, .High⟩, ⟨2, "b", false, .Low⟩], 3⟩ :
        TodoList).next_id < U32_MOD ∧
    load_todo_list
        (save_todo_list (fun _ => none) "todo.json"
          ⟨[⟨1, "a", true, .High⟩, ⟨2, "b", false, .Low⟩], 3⟩)
        "todo.json" =
      ⟨[⟨1, "a", true, .High⟩, ⟨2, "b", false, .Low⟩], 3⟩ :=
  ⟨by decide, by decide,
    save_load_roundtrip (fun _ => none) "todo.json" _ (by decide) (by decide)⟩

/-- C7. Loading from a missing file, from a file whose text is not valid
JSON, or from a JSON document that does not deserialize to a `TodoList`,
never errors: it yields a fresh empty list with no tasks and
`next_id = 1`. -/
theorem load_missing_or_corrupt (fs : FS) (path : String)
    (h : fs path = none ∨ fs path = some .garbage ∨
      ∃ j, fs path = some (.json j) ∧ TodoList.fromJson j = none) :
    (load_todo_list fs path).tasks = [] ∧
    (load_todo_list fs path).next_id = 1 := by
  rcases h with h | h | ⟨j, hj, hparse⟩
  · rw [load_todo_list, h]; exact ⟨rfl, rfl⟩
  · rw [load_todo_list, h]; exact ⟨rfl, rfl⟩
  · rw [load_todo_list, hj]
    show ((TodoList.fromJson j).getD TodoList.defaultList).tasks = [] ∧
      ((TodoList.fromJson j).getD TodoList.defaultList).next_id = 1
    rw [hparse]
    exact ⟨rfl, rfl⟩

theorem load_missing_or_corrupt_witness :
    ((fun _ => none : FS) "todo.json" = none ∨
      (fun _ => none : FS) "todo.json" = some .garbage ∨
      ∃ j, (fun _ => none : FS) "todo.json" = some (.json j) ∧
        TodoList.fromJson j = none) ∧
    ((load_todo_list (fun _ => none) "todo.json").tasks = [] ∧
      (load_todo_list (fun _ => none) "todo.json").next_id = 1) :=
  ⟨Or.inl rfl, load_missing_or_corrupt (fun _ => none) "todo.json" (Or.inl rfl)⟩

end SimpleTodo
